import Mathlib

/-!
Verification of the core pipeline of `zepto_scraper_enhanced.py`
(class `EnhancedZeptoScraper`): the retry/backoff request layer
(`_make_request`), the pagination loop (`get_all_products_in_category`),
the per-record normalizer (`extract_product_details`) and the aggregator
(`analyze_products`).

Modelling conventions:
* Python floats are modelled as exact rationals (`ℚ`); Python's `round(x, 2)`
  is modelled as round-half-to-even on the exact value, scaled by 100.
* A Python dict is modelled as an association list with lookup on the first
  matching key (Python dicts have unique keys).
* Python's dynamically typed values are modelled by the inductive `RawValue`;
  the builtins `float`, `int` and `str.join` are modelled as `Option`-valued
  functions that return `none` exactly where the builtin raises
  (`ValueError` / `TypeError`).
* `time.sleep` calls are modelled by recording the slept durations in a list,
  in order; `logging` calls are not modelled (they do not affect data flow).
* Exceptions escaping a modelled function are represented by an `Option`
  result of `none` where the function can raise at all; functions that the
  source guards with `try`/defaults are total.
-/

/-! ## Python `round(x, 2)` on exact values

Python's `round` uses round-half-to-even.  `pyRound` rounds a rational to the
nearest integer, ties to the even neighbour; `round2 x` models `round(x, 2)`.
-/

/-- Round-half-to-even on rationals, as Python's builtin `round(x)`. -/
def pyRound (q : ℚ) : ℤ :=
  let f : ℤ := Rat.floor q
  let r : ℚ := q - (f : ℚ)
  if r < 1/2 then f
  else if 1/2 < r then f + 1
  else if f % 2 = 0 then f else f + 1

/-- Python's `round(x, 2)`: round to the nearest multiple of 1/100. -/
def round2 (q : ℚ) : ℚ := (pyRound (q * 100) : ℚ) / 100

/-- The derived-discount computation of `extract_product_details`
(source lines 196-201): `round(((mrp - price) / mrp) * 100, 2)` when
`details['mrp'] > 0`, else `0`. -/
def discountPercent (price mrp : ℚ) : ℚ :=
  if 0 < mrp then round2 (((mrp - price) / mrp) * 100) else 0

/-! ## Raw Python values and dicts -/

/-- A dynamically typed value as it appears in a raw JSON record:
a string, a number (Python int or float, modelled as one exact rational),
a boolean, a list, or `None`. -/
inductive RawValue where
  | str (s : String)
  | num (q : ℚ)
  | boolean (b : Bool)
  | list (items : List RawValue)
  | null
deriving Repr

/-- A raw record (`Dict` in the source): an association list of keys to
raw values; lookup takes the first matching key. -/
def RawDict := List (String × RawValue)

/-- Python's `product.get(k, d)`: the value at key `k`, or the default `d`. -/
def dget (m : RawDict) (k : String) (d : RawValue) : RawValue :=
  match m.find? (fun kv => kv.1 == k) with
  | some kv => kv.2
  | none => d

/-- Numeric value of a digit list, most significant first (all entries are
assumed decimal digits). -/
def digitsVal (l : List Char) : ℕ :=
  l.foldl (fun a c => a * 10 + (c.toNat - 48)) 0

/-- Parse an unsigned Python numeric literal: digits, optionally with one
dot and further digits; at least one digit overall (`"1"`, `"1.5"`,
`"1."`, `".5"`). -/
def parseUnsigned (l : List Char) : Option ℚ :=
  let intPart := l.takeWhile Char.isDigit
  let rest := l.dropWhile Char.isDigit
  match rest with
  | [] =>
      if intPart.isEmpty then none else some (digitsVal intPart : ℚ)
  | c :: frac =>
      if c == '.' && frac.all Char.isDigit && !(intPart.isEmpty && frac.isEmpty)
      then some ((digitsVal intPart : ℚ) + (digitsVal frac : ℚ) / (10 : ℚ) ^ frac.length)
      else none

/-- Parse a signed Python numeric literal. -/
def parseSigned (l : List Char) : Option ℚ :=
  match l with
  | c :: rest =>
      if c == '-' then (parseUnsigned rest).map Neg.neg
      else if c == '+' then parseUnsigned rest
      else parseUnsigned l
  | [] => none

/-- Python's builtin `float(x)`: succeeds on numbers, booleans and numeric
strings; raises (`none`) on lists, `None` and non-numeric strings.
(Special strings such as `"inf"`/`"nan"` are out of the modelled fragment.) -/
def pyFloat : RawValue → Option ℚ
  | .num q => some q
  | .boolean b => some (if b then 1 else 0)
  | .str s => parseSigned s.toList
  | .list _ => none
  | .null => none

/-- Parse a signed decimal integer literal (`int(str)` accepts no dot). -/
def parseSignedInt (l : List Char) : Option ℤ :=
  match l with
  | c :: rest =>
      if c == '-' then
        if !rest.isEmpty && rest.all Char.isDigit then some (-(digitsVal rest : ℤ)) else none
      else if c == '+' then
        if !rest.isEmpty && rest.all Char.isDigit then some (digitsVal rest : ℤ) else none
      else if l.all Char.isDigit then some (digitsVal l : ℤ) else none
  | [] => none

/-- Python's builtin `int(x)`: truncates numbers toward zero, maps booleans
to 0/1, parses pure-integer strings; raises (`none`) on lists, `None` and
non-integer strings. -/
def pyInt : RawValue → Option ℤ
  | .num q => some (Int.tdiv q.num (q.den : ℤ))
  | .boolean b => some (if b then 1 else 0)
  | .str s => parseSignedInt s.toList
  | .list _ => none
  | .null => none

/-- Whether a raw value is a string. -/
def RawValue.isStr : RawValue → Bool
  | .str _ => true
  | _ => false

/-- The string carried by a raw value (meaningful only when `isStr`). -/
def RawValue.asStr : RawValue → String
  | .str s => s
  | _ => ""

/-- Python's `', '.join(x)`: succeeds on a list whose items are all strings
and on a string (joining its characters); raises (`none`) otherwise. -/
def pyJoin : RawValue → Option String
  | .list items =>
      if items.all RawValue.isStr
      then some (String.intercalate ", " (items.map RawValue.asStr))
      else none
  | .str s => some (String.intercalate ", " (s.toList.map Char.toString))
  | _ => none

/-! ## Normalizer: `extract_product_details` (source lines 173-207) -/

/-- The normalized record built by `extract_product_details`.  Fields the
source passes through unconverted (`product.get(k, default)`) keep the raw
dynamic type `RawValue`; fields the source converts (`float(...)`,
`int(...)`, `', '.join(...)`) have the converted type. -/
structure Details where
  product_id : RawValue
  name : RawValue
  brand : RawValue
  price : ℚ
  mrp : ℚ
  weight : RawValue
  unit : RawValue
  quantity : RawValue
  availability : RawValue
  image_url : RawValue
  thumbnail_url : RawValue
  category : RawValue
  subcategory : RawValue
  description : RawValue
  rating : ℚ
  review_count : ℤ
  tags : String
  scraped_at : String
  discount_percent : ℚ

/-- The normalizer `extract_product_details(self, product)` (source lines 173-207).  The
conversions `float(...)`, `int(...)` and `', '.join(...)` can raise on
present but inconvertible values, so the result is an `Option`; `none`
models the raised exception.  `now` stands for `datetime.now()` formatted to
second precision.  The optional image download (line 204) only performs
I/O and cannot alter the returned record, so it is not modelled. -/
def extract_product_details (now : String) (product : RawDict) : Option Details := do
  let price ← pyFloat (dget product "price" (.num 0))
  let mrp ← pyFloat (dget product "mrp" (.num 0))
  let rating ← pyFloat (dget product "rating" (.num 0))
  let review_count ← pyInt (dget product "review_count" (.num 0))
  let tags ← pyJoin (dget product "tags" (.list []))
  pure {
    product_id := dget product "id" (.str "N/A")
    name := dget product "name" (.str "N/A")
    brand := dget product "brand" (.str "N/A")
    price := price
    mrp := mrp
    weight := dget product "weight" (.str "N/A")
    unit := dget product "unit" (.str "N/A")
    quantity := dget product "quantity" (.str "N/A")
    availability := dget product "in_stock" (.boolean true)
    image_url := dget product "image_url" (.str "N/A")
    thumbnail_url := dget product "thumbnail_url" (.str "N/A")
    category := dget product "category" (.str "N/A")
    subcategory := dget product "subcategory" (.str "N/A")
    description := dget product "description" (.str "N/A")
    rating := rating
    review_count := review_count
    tags := tags
    scraped_at := now
    discount_percent := discountPercent price mrp
  }

/-! ## Aggregator: `analyze_products` (source lines 279-304) -/

/-- A canonical product as consumed by `analyze_products`: the fields the
aggregator reads, with their canonical types. -/
structure Product where
  price : ℚ
  mrp : ℚ
  discount_percent : ℚ
  availability : Bool
  brand : String
  category : String
deriving DecidableEq

/-- The analysis dict built by `analyze_products` when the input is
non-empty.  Python keys `'50_100'` and `'100_200'` are the fields
`r50_100` and `r100_200` (Lean names cannot begin with a digit); the
`price_ranges` sub-dict is inlined as the last four fields. -/
structure Report where
  total_products : ℕ
  available_products : ℕ
  unavailable_products : ℕ
  average_price : ℚ
  average_mrp : ℚ
  average_discount : ℚ
  max_price : ℚ
  min_price : ℚ
  brands : List String
  categories : List String
  under_50 : ℕ
  r50_100 : ℕ
  r100_200 : ℕ
  over_200 : ℕ
deriving DecidableEq

/-- Python's `max(...)` over a non-empty sequence (the head seeds the fold;
the `[]` case is never reached by `analyze_products`). -/
def listMax : List ℚ → ℚ
  | [] => 0
  | x :: xs => xs.foldl max x

/-- Python's `min(...)` over a non-empty sequence. -/
def listMin : List ℚ → ℚ
  | [] => 0
  | x :: xs => xs.foldl min x

/-- Price-bucket membership tests of the `price_ranges` histogram
(source lines 297-302). -/
def bucketUnder50 (p : Product) : Bool := decide (p.price < 50)

/-- Bucket `'50_100'`: `50 <= price < 100`. -/
def bucket50to100 (p : Product) : Bool := decide (50 ≤ p.price ∧ p.price < 100)

/-- Bucket `'100_200'`: `100 <= price < 200`. -/
def bucket100to200 (p : Product) : Bool := decide (100 ≤ p.price ∧ p.price < 200)

/-- Bucket `'over_200'`: `price >= 200`. -/
def bucketOver200 (p : Product) : Bool := decide (200 ≤ p.price)

/-- The aggregator `analyze_products(self, products)` (source lines 279-304).  On an empty
input the source returns the empty dict `{}`, modelled as `none`; otherwise
it returns the populated analysis dict.  `list(set(...))` is modelled as
`dedup` (Python's set iteration order is unspecified). -/
def analyze_products (products : List Product) : Option Report :=
  if products.isEmpty then none
  else
    let n : ℚ := (products.length : ℚ)
    some {
      total_products := products.length
      available_products := products.countP (fun p => p.availability)
      unavailable_products := products.countP (fun p => !p.availability)
      average_price := round2 ((products.map Product.price).sum / n)
      average_mrp := round2 ((products.map Product.mrp).sum / n)
      average_discount := round2 ((products.map Product.discount_percent).sum / n)
      max_price := listMax (products.map Product.price)
      min_price := listMin (products.map Product.price)
      brands := ((products.filter (fun p => p.brand != "N/A")).map Product.brand).dedup
      categories := ((products.filter (fun p => p.category != "N/A")).map Product.category).dedup
      under_50 := products.countP bucketUnder50
      r50_100 := products.countP bucket50to100
      r100_200 := products.countP bucket100to200
      over_200 := products.countP bucketOver200
    }

/-! ## Retry Policy: `_make_request` (source lines 71-94)

The transport is a function from the attempt index to the outcome of that
attempt.  `time.sleep` calls are recorded, in order, in `waits`; `attempts`
counts transport invocations.
-/

/-- Outcome of one transport attempt:
* `ok p` — HTTP 200 and `response.json()` decodes to `p`;
* `badJson` — HTTP 200 but `response.json()` raises (decode error);
* `http s` — an HTTP response with status `s ≠ 200` (429, 5xx, ...);
* `exc` — the request itself raises (timeout, connection error). -/
inductive Outcome (α : Type) where
  | ok (payload : α)
  | badJson
  | http (status : ℕ)
  | exc

/-- Observable behaviour of `_make_request`: the returned value (`none` for
the fall-through `return None`), the slept durations in order, and the
number of transport invocations. -/
structure RequestResult (α : Type) where
  result : Option α
  waits : List ℚ
  attempts : ℕ
deriving DecidableEq

/-- The `for attempt in range(self.max_retries)` loop of `_make_request`,
processing the remaining attempt indices.  Branches mirror the source:
HTTP 200 sleeps `rate_limit_delay` and returns (a decode failure lands in
the `except`, after that sleep); HTTP 429 sleeps `2**attempt` and retries;
any other status only logs; an exception sleeps `2**attempt` only while
`attempt < max_retries - 1`. -/
def makeRequestLoop (t : ℕ → Outcome α) (N : ℕ) (delay : ℚ) :
    List ℕ → RequestResult α
  | [] => { result := none, waits := [], attempts := 0 }
  | i :: rest =>
    match t i with
    | .ok p => { result := some p, waits := [delay], attempts := 1 }
    | .badJson =>
        let r := makeRequestLoop t N delay rest
        { result := r.result
          waits := delay :: (if i < N - 1 then (2 : ℚ) ^ i :: r.waits else r.waits)
          attempts := r.attempts + 1 }
    | .http s =>
        if s == 429 then
          let r := makeRequestLoop t N delay rest
          { r with waits := (2 : ℚ) ^ i :: r.waits, attempts := r.attempts + 1 }
        else
          let r := makeRequestLoop t N delay rest
          { r with attempts := r.attempts + 1 }
    | .exc =>
        let r := makeRequestLoop t N delay rest
        { result := r.result
          waits := if i < N - 1 then (2 : ℚ) ^ i :: r.waits else r.waits
          attempts := r.attempts + 1 }

/-- The retry layer `_make_request(self, url, params, method)` (source lines 71-94), with
the transport abstracted as `t`, `N = self.max_retries` and
`delay = self.rate_limit_delay`. -/
def make_request (t : ℕ → Outcome α) (N : ℕ) (delay : ℚ) : RequestResult α :=
  makeRequestLoop t N delay (List.range N)

/-- The sleeps attempt `i` contributes to an unsuccessful `_make_request`
run: a 429 contributes `2^i`; an exception contributes `2^i` only while
attempts remain; a decode error contributes the courtesy `delay` (slept
before the decode) and then `2^i` while attempts remain; any other status
contributes nothing. -/
def attemptWaits (t : ℕ → Outcome α) (N : ℕ) (delay : ℚ) (i : ℕ) : List ℚ :=
  match t i with
  | .ok _ => []
  | .badJson => delay :: (if i < N - 1 then [(2 : ℚ) ^ i] else [])
  | .http s => if s == 429 then [(2 : ℚ) ^ i] else []
  | .exc => if i < N - 1 then [(2 : ℚ) ^ i] else []

/-- The full sleep sequence of an unsuccessful `_make_request` run. -/
def failWaits (t : ℕ → Outcome α) (N : ℕ) (delay : ℚ) : List ℚ :=
  (List.range N).flatMap (attemptWaits t N delay)

/-! ## Paginator: `get_all_products_in_category` (source lines 131-171)

The page fetcher `f` maps a 1-based page number to the record list that
`get_products_by_category` returns for that page (`[]` both for an empty
page and for retry exhaustion, source lines 124-129).  The `while True:`
loop has no structural bound, so it is modelled with fuel: `none` means the
loop has not finished within `fuel` iterations (and, for every fuel,
models non-termination).  The result carries the accumulated records and
the number of page fetches performed.
-/

/-- The `while True:` pagination loop (source lines 151-168): fetch page,
stop on an empty page; append; stop when a positive `max_pages` is reached;
stop on a short page; else advance to the next page. -/
def paginateAux (f : ℕ → List α) (pageSize maxPages : ℕ) :
    ℕ → ℕ → ℕ → List α → Option (List α × ℕ)
  | 0, _, _, _ => none
  | fuel + 1, page, fetches, acc =>
    let products := f page
    if products.isEmpty then some (acc, fetches + 1)
    else
      let acc2 := acc ++ products
      if 0 < maxPages ∧ maxPages ≤ page then some (acc2, fetches + 1)
      else if products.length < pageSize then some (acc2, fetches + 1)
      else paginateAux f pageSize maxPages fuel (page + 1) (fetches + 1) acc2

/-- One entry of the category listing (`{id, name, ...}`). -/
structure Category where
  name : String
  id : String
deriving DecidableEq

/-- Python's substring test `needle in hay` on character lists. -/
def strInAux (needle : List Char) : List Char → Bool
  | [] => needle.isEmpty
  | c :: rest => needle.isPrefixOf (c :: rest) || strInAux needle rest

/-- The match test of source line 137:
`category_name.lower() in cat.get('name', '').lower()`. -/
def categoryMatches (category_name : String) (cat : Category) : Bool :=
  strInAux (category_name.toList.map Char.toLower) (cat.name.toList.map Char.toLower)

/-- The resolution loop of source lines 136-140: the first category, in
listing order, whose name contains the query case-insensitively. -/
def findCategory (category_name : String) (cats : List Category) : Option Category :=
  cats.find? (categoryMatches category_name)

/-- The paginator `get_all_products_in_category(self, category_name)` (source lines
131-171), with the category listing `cats` (the value of
`self.get_categories()`) and the page fetcher `f` abstracted.  `if not
category_id` (line 142) is true when no category matched or when the
matched id is the empty string (falsy). -/
def get_all_products_in_category (cats : List Category) (f : ℕ → List α)
    (pageSize maxPages fuel : ℕ) (category_name : String) :
    Option (List α × ℕ) :=
  match findCategory category_name cats with
  | none => some ([], 0)
  | some cat =>
      if cat.id == "" then some ([], 0)
      else paginateAux f pageSize maxPages fuel 1 0 []

/-! ## Test fixtures and auxiliary predicates -/

/-- A fixed normalization timestamp used in concrete test records. -/
def tnow : String := "2026-10-12 00:00:00"

/-- A raw record whose `price` is present but is `None`:
`float(None)` raises `TypeError` in `extract_product_details`. -/
def nullPriceRecord : RawDict := [("price", RawValue.null)]

/-- The record `extract_product_details` builds from the empty raw mapping:
every field is its documented default. -/
def defaultDetails (now : String) : Details :=
  { product_id := .str "N/A"
    name := .str "N/A"
    brand := .str "N/A"
    price := 0
    mrp := 0
    weight := .str "N/A"
    unit := .str "N/A"
    quantity := .str "N/A"
    availability := .boolean true
    image_url := .str "N/A"
    thumbnail_url := .str "N/A"
    category := .str "N/A"
    subcategory := .str "N/A"
    description := .str "N/A"
    rating := 0
    review_count := 0
    tags := ""
    scraped_at := now
    discount_percent := 0 }

/-- Raw records on which every conversion `extract_product_details`
performs succeeds: the (present or defaulted) `price`, `mrp` and `rating`
are `float`-convertible, `review_count` is `int`-convertible and `tags` is
joinable. -/
def WellTypedRaw (p : RawDict) : Prop :=
  (pyFloat (dget p "price" (.num 0))).isSome = true ∧
  (pyFloat (dget p "mrp" (.num 0))).isSome = true ∧
  (pyFloat (dget p "rating" (.num 0))).isSome = true ∧
  (pyInt (dget p "review_count" (.num 0))).isSome = true ∧
  (pyJoin (dget p "tags" (.list []))).isSome = true

/-- A raw record with present, convertible values of mixed kinds. -/
def sampleRaw : RawDict :=
  [("id", RawValue.str "p1"), ("price", RawValue.num 5),
   ("mrp", RawValue.str "10"), ("in_stock", RawValue.boolean false),
   ("tags", RawValue.list [RawValue.str "fresh", RawValue.str "new"])]

/-- A page fetcher that answers every page with a full page of 20 records. -/
def constFullPages : ℕ → List ℕ := fun _ => List.replicate 20 0

/-- Whether a transport outcome is a success (HTTP 200 with decodable body). -/
def Outcome.isOk : Outcome α → Bool
  | .ok _ => true
  | _ => false

/-- The specification's formula for the derived discount (spec sections 3
and 8): 0 whenever `mrp ≤ 0`, else `round(((mrp - price) / mrp) * 100, 2)`. -/
def specDiscount (price mrp : ℚ) : ℚ :=
  if mrp ≤ 0 then 0 else round2 (((mrp - price) / mrp) * 100)

/-- A synthetic response sequence of page sizes 20, 20, 5: the 45 distinct
records `0, ..., 44` in order. -/
def pages45 : ℕ → List ℕ := fun p =>
  if p = 1 then List.range' 0 20
  else if p = 2 then List.range' 20 20
  else if p = 3 then List.range' 40 5
  else []

/-- A canonical product priced 10 (bucket `under_50`). -/
def prodP10 : Product := ⟨10, 20, 50, true, "Amul", "Dairy"⟩

/-- A canonical product priced 60 (bucket `'50_100'`). -/
def prodP60 : Product := ⟨60, 60, 0, true, "N/A", "Fruits"⟩

/-- A canonical product priced 150 (bucket `'100_200'`), unavailable. -/
def prodP150 : Product := ⟨150, 200, 25, false, "Tata", "Dairy"⟩

/-- A canonical product priced 250 (bucket `over_200`). -/
def prodP250 : Product := ⟨250, 250, 0, true, "Amul", "Snacks"⟩

/-- A CategoryResult with one product in each price bucket. -/
def prods4 : List Product := [prodP10, prodP60, prodP150, prodP250]

/-- A placeholder report (only used as a `getD` default on an input known
to produce `some`). -/
def junkReport : Report := ⟨0, 0, 0, 0, 0, 0, 0, 0, [], [], 0, 0, 0, 0⟩

/-- The report `analyze_products` computes for `prods4`. -/
def reportOfProds4 : Report := (analyze_products prods4).getD junkReport

/-- The category listing entry named "Fresh Fruits". -/
def freshFruits : Category := ⟨"Fresh Fruits", "cat-1"⟩

/-- The category listing entry named "Dairy". -/
def dairy : Category := ⟨"Dairy", "cat-2"⟩

/-- The category listing `["Fresh Fruits", "Dairy"]`. -/
def catsSample : List Category := [freshFruits, dairy]

/-- The query "fruit" (lower case, a proper substring). -/
def queryFruit : String := "fruit"

/-- A query matching no category in the listings used here. -/
def queryMissing : String := "noodles"


/-- On a run of attempt indices none of which succeeds, the retry loop
returns no result, sleeps exactly the per-attempt contributions in order,
and uses every attempt. -/
theorem makeRequestLoop_no_success (t : ℕ → Outcome α) (N : ℕ) (delay : ℚ) :
    ∀ l : List ℕ, (∀ i ∈ l, (t i).isOk = false) →
      makeRequestLoop t N delay l =
        { result := none, waits := l.flatMap (attemptWaits t N delay),
          attempts := l.length } := by
  intro l
  induction l with
  | nil => intro _; rfl
  | cons i rest ih =>
      intro h
      have hi : (t i).isOk = false := h i (by simp)
      have ihr := ih (fun j hj => h j (by simp [hj]))
      cases ht : t i with
      | ok p => rw [ht] at hi; simp [Outcome.isOk] at hi
      | badJson =>
          by_cases hN : i < N - 1 <;>
            simp [makeRequestLoop, ht, ihr, attemptWaits, hN]
      | http s =>
          by_cases hs : s == 429 <;>
            simp [makeRequestLoop, ht, ihr, attemptWaits, hs]
      | exc =>
          by_cases hN : i < N - 1 <;>
            simp [makeRequestLoop, ht, ihr, attemptWaits, hN]

/-- C3 (amended).  When no attempt succeeds, `_make_request` logs and
retries through all `N` attempts and returns `None`, never an exception;
it waits `2^attempt` before a retry only after a rate-limit (429) response
or after a raised transport error (timeout, connection error, decode
error) with attempts remaining — after any other non-200 status it
retries immediately with no wait (the original claim's wait applies to
raised failures and 429s, not to plain non-200 statuses; a decode error
additionally incurs the courtesy delay slept before decoding). -/
theorem make_request_failure_trace {α : Type} (t : ℕ → Outcome α) (N : ℕ)
    (delay : ℚ) (h : ∀ i, i < N → (t i).isOk = false) :
    make_request t N delay =
      { result := none, waits := failWaits t N delay, attempts := N } := by
  have hmain := makeRequestLoop_no_success t N delay (List.range N)
    (fun i hi => h i (List.mem_range.mp hi))
  simpa [make_request, failWaits] using hmain

/-- Witness for C3 (amended): two straight HTTP 500 responses with `N = 2`. -/
theorem make_request_failure_trace_witness :
    make_request (fun _ => (Outcome.http 500 : Outcome ℕ)) 2 1 =
      { result := none,
        waits := failWaits (fun _ => (Outcome.http 500 : Outcome ℕ)) 2 1,
        attempts := 2 } :=
  make_request_failure_trace (fun _ => (Outcome.http 500 : Outcome ℕ)) 2 1
    (fun _ _ => rfl)

/-- C3 counterexample: with a transport that always reports HTTP 500 and
`N = 3`, the code performs no wait at all between attempts, refuting the
claim that every non-200, non-429 status waits `2^attempt` before a retry
(that would give the waits `[1, 2]`). -/
theorem make_request_http500_no_wait :
    (make_request (fun _ => (Outcome.http 500 : Outcome ℕ)) 3 1).waits = [] ∧
    (make_request (fun _ => (Outcome.http 500 : Outcome ℕ)) 3 1).waits ≠ [1, 2] := by
  exact ⟨rfl, by decide⟩

/-- C2 counterexample: with a transport that always reports HTTP 429 and
`N = 3`, the code sleeps `2^attempt` after every 429 including the final
attempt, so the wait trace is `[1, 2, 4]`, not the claimed `[1, 2]`. -/
theorem make_request_always429_waits_cex :
    (make_request (fun _ => (Outcome.http 429 : Outcome ℕ)) 3 1).waits = [1, 2, 4] ∧
    (make_request (fun _ => (Outcome.http 429 : Outcome ℕ)) 3 1).waits ≠ [1, 2] := by
  decide

/-- C2 (amended).  With a transport that always reports HTTP 429 and
`N = 3`, `_make_request` performs exactly 3 attempts, waits `2^attempt`
after each 429 — 1 and 2 time units between consecutive attempts and
additionally 4 after the final attempt — and returns `None` (for every
configured post-success delay, which is never slept here). -/
theorem make_request_always429_trace (delay : ℚ) :
    make_request (fun _ => (Outcome.http 429 : Outcome ℕ)) 3 delay =
      { result := none, waits := [1, 2, 4], attempts := 3 } := by
  rfl

/-! ## Normalizer theorems (C1, C6) -/

/-- C1 counterexample: `extract_product_details` is not total on raw
records whose present values have arbitrary types — on `{'price': None}`
the conversion `float(product.get('price', 0))` raises (`none`), so no
CanonicalProduct is returned. -/
theorem extract_null_price_raises :
    extract_product_details tnow nullPriceRecord = none := rfl

/-- C1 (amended).  `extract_product_details` never fails on raw mappings
that omit fields: on the empty mapping it returns the record with every
field set to its documented default (sentinel strings, zero numbers,
availability `True`), and on every raw mapping whose present convertible
fields are in fact convertible (`WellTypedRaw`) it returns a record with
every field of the canonical schema present.  (Present but inconvertible
values, such as a `None` price, instead raise — see the counterexample.) -/
theorem extract_welltyped_total :
    (∀ now : String, extract_product_details now [] = some (defaultDetails now)) ∧
    (∀ (now : String) (p : RawDict), WellTypedRaw p →
      (extract_product_details now p).isSome = true) := by
  constructor
  · intro now; rfl
  · intro now p h
    rcases Option.isSome_iff_exists.mp h.1 with ⟨v1, e1⟩
    rcases Option.isSome_iff_exists.mp h.2.1 with ⟨v2, e2⟩
    rcases Option.isSome_iff_exists.mp h.2.2.1 with ⟨v3, e3⟩
    rcases Option.isSome_iff_exists.mp h.2.2.2.1 with ⟨v4, e4⟩
    rcases Option.isSome_iff_exists.mp h.2.2.2.2 with ⟨v5, e5⟩
    simp [extract_product_details, e1, e2, e3, e4, e5]

/-- Witness for C1 (amended): `sampleRaw` is well typed and normalizes. -/
theorem extract_welltyped_total_witness :
    (extract_product_details tnow sampleRaw).isSome = true :=
  extract_welltyped_total.2 tnow sampleRaw ⟨rfl, rfl, rfl, rfl, rfl⟩

/-! ## Paginator theorems (C4, C7) -/

/-- With `max_pages = 0` (unlimited) and every page full-sized, the
pagination loop never finishes, whatever the fuel. -/
theorem paginateAux_constFull_none :
    ∀ (fuel page fetches : ℕ) (acc : List ℕ),
      paginateAux constFullPages 20 0 fuel page fetches acc = none := by
  intro fuel
  induction fuel with
  | zero => intro page fetches acc; rfl
  | succ n ih =>
      intro page fetches acc
      simp only [paginateAux, constFullPages]
      norm_num
      exact ih (page + 1) (fetches + 1) _

/-- C4 counterexample: pagination does not terminate for every input — with
the always-full page fetcher and `max_pages = 0` the loop never stops (no
short page, no empty page, no limit), refuting termination for all inputs. -/
theorem pagination_not_always_terminating :
    ¬ ∃ (fuel : ℕ) (r : List ℕ × ℕ),
        paginateAux constFullPages 20 0 fuel 1 0 [] = some r := by
  rintro ⟨fuel, r, hr⟩
  rw [paginateAux_constFull_none fuel 1 0 []] at hr
  exact Option.noConfusion hr

/-- If a positive `max_pages` is configured, the loop finishes: it stops at
latest when the current page reaches `max_pages`. -/
theorem paginateAux_maxPages_terminates {α : Type} (f : ℕ → List α)
    (pageSize maxPages : ℕ) (hmp : 0 < maxPages) :
    ∀ (fuel page fetches : ℕ) (acc : List α), page ≤ maxPages →
      maxPages < page + fuel →
      ∃ r, paginateAux f pageSize maxPages fuel page fetches acc = some r := by
  intro fuel
  induction fuel with
  | zero => intro page fetches acc h1 h2; omega
  | succ n ih =>
      intro page fetches acc h1 h2
      simp only [paginateAux]
      by_cases he : (f page).isEmpty
      · simp [he]
      · simp only [he, Bool.false_eq_true, if_false]
        by_cases hstop : 0 < maxPages ∧ maxPages ≤ page
        · simp [hstop]
        · simp only [hstop, if_false]
          by_cases hshort : (f page).length < pageSize
          · simp [hshort]
          · simp only [hshort, if_false]
            exact ih (page + 1) (fetches + 1) _ (by omega) (by omega)

/-- If some page `p ≥ 1` is short (fewer than `pageSize` records), the loop
finishes: it stops at latest when it reaches page `p`. -/
theorem paginateAux_short_terminates {α : Type} (f : ℕ → List α)
    (pageSize maxPages p : ℕ) (hp : (f p).length < pageSize) :
    ∀ (fuel page fetches : ℕ) (acc : List α), page ≤ p → p < page + fuel →
      ∃ r, paginateAux f pageSize maxPages fuel page fetches acc = some r := by
  intro fuel
  induction fuel with
  | zero => intro page fetches acc h1 h2; omega
  | succ n ih =>
      intro page fetches acc h1 h2
      simp only [paginateAux]
      by_cases he : (f page).isEmpty
      · simp [he]
      · simp only [he, Bool.false_eq_true, if_false]
        by_cases hstop : 0 < maxPages ∧ maxPages ≤ page
        · simp [hstop]
        · simp only [hstop, if_false]
          by_cases hshort : (f page).length < pageSize
          · simp [hshort]
          · simp only [hshort, if_false]
            have hne : page ≠ p := fun hc => hshort (hc ▸ hp)
            exact ih (page + 1) (fetches + 1) _ (by omega) (by omega)

/-- C4 (amended).  The pagination loop of `get_all_products_in_category`
terminates whenever a positive max-page limit is configured or some page
`p ≥ 1` of the response sequence is short or empty (fewer records than
`page_size`; retry exhaustion yields such an empty page).  With an
unlimited (zero) limit and every page full-sized it loops forever — see
the counterexample — so termination does not hold for every input. -/
theorem pagination_terminates_of_limit_or_short {α : Type} (f : ℕ → List α)
    (pageSize maxPages : ℕ)
    (h : 0 < maxPages ∨ ∃ p, 1 ≤ p ∧ (f p).length < pageSize) :
    ∃ (fuel : ℕ) (r : List α × ℕ),
      paginateAux f pageSize maxPages fuel 1 0 [] = some r := by
  rcases h with hmp | ⟨p, hp1, hps⟩
  · rcases paginateAux_maxPages_terminates f pageSize maxPages hmp maxPages 1 0 []
      (by omega) (by omega) with ⟨r, hr⟩
    exact ⟨maxPages, r, hr⟩
  · rcases paginateAux_short_terminates f pageSize maxPages p hps p 1 0 []
      (by omega) (by omega) with ⟨r, hr⟩
    exact ⟨p, r, hr⟩

/-- Witness for C4 (amended): an immediately empty response sequence with
no page limit terminates. -/
theorem pagination_terminates_witness :
    ∃ (fuel : ℕ) (r : List ℕ × ℕ),
      paginateAux (fun _ => ([] : List ℕ)) 20 0 fuel 1 0 [] = some r :=
  pagination_terminates_of_limit_or_short (fun _ => ([] : List ℕ)) 20 0
    (Or.inr ⟨1, by norm_num⟩)

/-- C7.  On page responses of sizes [20, 20, 5] with `page_size = 20` and no
max-page limit, the paginator returns the ordered concatenation of all 45
records in exactly 3 page fetches; and in general, whenever the current
page returns a non-empty list of strictly fewer than `page_size` records
(and no max-page stop applies first), the loop stops immediately after
appending that page. -/
theorem paginator_short_page_stops :
    (paginateAux pages45 20 0 3 1 0 [] =
      some (pages45 1 ++ pages45 2 ++ pages45 3, 3)) ∧
    (pages45 1 ++ pages45 2 ++ pages45 3).length = 45 ∧
    (∀ (f : ℕ → List ℕ) (pageSize maxPages fuel page fetches : ℕ)
      (acc : List ℕ), f page ≠ [] → (f page).length < pageSize →
      ¬(0 < maxPages ∧ maxPages ≤ page) →
      paginateAux f pageSize maxPages (fuel + 1) page fetches acc =
        some (acc ++ f page, fetches + 1)) := by
  refine ⟨by decide, by decide, ?_⟩
  intro f pageSize maxPages fuel page fetches acc h1 h2 h3
  have he : (f page).isEmpty = false := by
    cases hf : f page with
    | nil => exact absurd hf h1
    | cons a l => rfl
  simp [paginateAux, he, h2, h3]

/-- Witness for C7: the loop stops right at the short page 3 of `pages45`. -/
theorem paginator_short_page_stops_witness :
    paginateAux pages45 20 0 1 3 2 (List.range' 0 40) =
      some (List.range' 0 40 ++ pages45 3, 3) :=
  paginator_short_page_stops.2.2 pages45 20 0 0 3 2 (List.range' 0 40)
    (by decide) (by decide) (by decide)

/-! ## Aggregator theorems (C5, C8, C10) -/

/-- C5 counterexample: on the empty CategoryResult, `analyze_products`
returns the empty dict `{}` (modelled `none`) — it returns no report at
all, so in particular no report whose counts are zero. -/
theorem analyze_empty_no_zero_report :
    ¬ ∃ r : Report, analyze_products [] = some r ∧ r.total_products = 0 := by
  rintro ⟨r, hr, -⟩
  simp [analyze_products] at hr

/-- C5 (amended).  `analyze_products` never raises and returns the
explicitly empty report `{}` — a dict with no fields at all, rather than a
report with zero-valued counts — exactly when the input collection is
empty; on every non-empty input it returns a populated report. -/
theorem analyze_empty_behaviour :
    analyze_products [] = none ∧
    (∀ ps : List Product, ps ≠ [] → ∃ r, analyze_products ps = some r) := by
  refine ⟨rfl, ?_⟩
  intro ps h
  have he : ps.isEmpty = false := by
    cases ps with
    | nil => exact absurd rfl h
    | cons a l => rfl
  unfold analyze_products
  rw [he]
  exact ⟨_, rfl⟩

/-- Witness for C5 (amended): a one-product input yields a report. -/
theorem analyze_empty_behaviour_witness :
    ∃ r, analyze_products [prodP60] = some r :=
  analyze_empty_behaviour.2 [prodP60] (List.cons_ne_nil _ _)

/-- C6.  For all `price, mrp ≥ 0` the normalizer's derived discount equals
the specification's formula — 0 whenever `mrp ≤ 0`, else
`round(((mrp - price) / mrp) * 100, 2)` — and is exact to 2 decimal
places: 100 times the value is an integer. -/
theorem discount_percent_matches_spec (price mrp : ℚ)
    (hp : 0 ≤ price) (hm : 0 ≤ mrp) :
    discountPercent price mrp = specDiscount price mrp ∧
    ∃ k : ℤ, discountPercent price mrp * 100 = (k : ℚ) := by
  constructor
  · unfold discountPercent specDiscount
    rcases lt_or_le 0 mrp with h | h
    · rw [if_pos h, if_neg (not_le.mpr h)]
    · rw [if_neg (not_lt.mpr h), if_pos h]
  · unfold discountPercent
    rcases lt_or_le 0 mrp with h | h
    · rw [if_pos h]
      refine ⟨pyRound ((((mrp - price) / mrp) * 100) * 100), ?_⟩
      unfold round2
      field_simp
    · rw [if_neg (not_lt.mpr h)]
      exact ⟨0, by norm_num⟩

/-- Witness for C6 at `price = 75`, `mrp = 100`. -/
theorem discount_percent_matches_spec_witness :
    discountPercent 75 100 = specDiscount 75 100 ∧
    ∃ k : ℤ, discountPercent 75 100 * 100 = (k : ℚ) :=
  discount_percent_matches_spec 75 100 (by norm_num) (by norm_num)

/-- Every product lies in exactly one of the four price buckets (negative
prices land in `under_50`). -/
theorem bucket_sum_one (p : Product) :
    (bucketUnder50 p).toNat + (bucket50to100 p).toNat +
    (bucket100to200 p).toNat + (bucketOver200 p).toNat = 1 := by
  unfold bucketUnder50 bucket50to100 bucket100to200 bucketOver200
  rcases lt_or_le p.price 50 with h1 | h1
  · have k1 : ¬ 50 ≤ p.price := not_le.mpr h1
    have k2 : ¬ 100 ≤ p.price := by intro hc; exact k1 (by linarith)
    have k3 : ¬ 200 ≤ p.price := by intro hc; exact k1 (by linarith)
    simp [h1, k1, k2, k3]
  · rcases lt_or_le p.price 100 with h2 | h2
    · have k1 : ¬ p.price < 50 := not_lt.mpr h1
      have k3 : ¬ 100 ≤ p.price := not_le.mpr h2
      have k4 : ¬ 200 ≤ p.price := by intro hc; exact k3 (by linarith)
      simp [k1, h1, h2, k3, k4]
    · rcases lt_or_le p.price 200 with h3 | h3
      · have k1 : ¬ p.price < 50 := by intro hc; linarith
        have k2 : ¬ p.price < 100 := not_lt.mpr h2
        have k4 : ¬ 200 ≤ p.price := not_le.mpr h3
        simp [k1, k2, h2, h3, k4]
      · have k1 : ¬ p.price < 50 := by intro hc; linarith
        have k2 : ¬ p.price < 100 := by intro hc; linarith
        have k3 : ¬ p.price < 200 := not_lt.mpr h3
        simp [k1, k2, k3, h3]

/-- C8.  The four price buckets of `analyze_products` are half-open and
partition the non-negative prices — every product with a non-negative
price lies in exactly one bucket — and on the CategoryResult with prices
[10, 60, 150, 250] the histogram is one product per bucket. -/
theorem price_buckets_partition :
    (∀ p : Product, 0 ≤ p.price →
      (bucketUnder50 p).toNat + (bucket50to100 p).toNat +
      (bucket100to200 p).toNat + (bucketOver200 p).toNat = 1) ∧
    (analyze_products prods4).map (fun r =>
      (r.under_50, r.r50_100, r.r100_200, r.over_200)) = some (1, 1, 1, 1) := by
  exact ⟨fun p _ => bucket_sum_one p, by decide⟩

/-- Witness for C8 at the product priced 60. -/
theorem price_buckets_partition_witness :
    (bucketUnder50 prodP60).toNat + (bucket50to100 prodP60).toNat +
    (bucket100to200 prodP60).toNat + (bucketOver200 prodP60).toNat = 1 :=
  price_buckets_partition.1 prodP60 (by decide)

/-- Availability and unavailability counts split the product count. -/
theorem countP_availability (ps : List Product) :
    ps.countP (fun p => p.availability) +
      ps.countP (fun p => !p.availability) = ps.length := by
  induction ps with
  | nil => rfl
  | cons a l ih =>
      cases ha : a.availability <;>
        simp [List.countP_cons, ha] <;> omega

/-- The four bucket counts sum to the product count, for any prices. -/
theorem countP_buckets (ps : List Product) :
    ps.countP bucketUnder50 + ps.countP bucket50to100 +
      ps.countP bucket100to200 + ps.countP bucketOver200 = ps.length := by
  induction ps with
  | nil => rfl
  | cons a l ih =>
      have h := bucket_sum_one a
      cases hb1 : bucketUnder50 a <;> cases hb2 : bucket50to100 a <;>
        cases hb3 : bucket100to200 a <;> cases hb4 : bucketOver200 a <;>
        simp [List.countP_cons, hb1, hb2, hb3, hb4, Bool.toNat] at h ⊢ <;>
        omega

/-- C10.  For every non-empty CategoryResult, the report of
`analyze_products` satisfies `available + unavailable = total` and
`under_50 + 50_100 + 100_200 + over_200 = total`, the latter even for
negative prices (the `under_50` bucket absorbs every price below 50). -/
theorem analyze_counts_partition (ps : List Product) (hne : ps ≠ [])
    (r : Report) (hr : analyze_products ps = some r) :
    r.available_products + r.unavailable_products = r.total_products ∧
    r.under_50 + r.r50_100 + r.r100_200 + r.over_200 = r.total_products := by
  have he : ps.isEmpty = false := by
    cases ps with
    | nil => exact absurd rfl hne
    | cons a l => rfl
  unfold analyze_products at hr
  rw [he] at hr
  simp only [Bool.false_eq_true, if_false, Option.some.injEq] at hr
  subst hr
  exact ⟨countP_availability ps, countP_buckets ps⟩

/-- Witness for C10 on `prods4` (3 available, 1 unavailable, one product
per bucket). -/
theorem analyze_counts_partition_witness :
    reportOfProds4.available_products + reportOfProds4.unavailable_products =
      reportOfProds4.total_products ∧
    reportOfProds4.under_50 + reportOfProds4.r50_100 +
      reportOfProds4.r100_200 + reportOfProds4.over_200 =
      reportOfProds4.total_products :=
  analyze_counts_partition prods4 (List.cons_ne_nil _ _) reportOfProds4 rfl

/-! ## Category-resolution theorems (C9) -/

/-- C9.  Category resolution matches the queried name case-insensitively as
a substring of each listed name; the first match in listing order wins —
"fruit" against ["Fresh Fruits", "Dairy"] resolves to "Fresh Fruits" — and
when no category matches, `get_all_products_in_category` returns the empty
product list (with a logged error) rather than raising. -/
theorem category_resolution_spec :
    findCategory queryFruit catsSample = some freshFruits ∧
    (∀ (q : String) (c : Category) (cs : List Category),
      categoryMatches q c = true → findCategory q (c :: cs) = some c) ∧
    (∀ (cats : List Category) (f : ℕ → List ℕ)
      (pageSize maxPages fuel : ℕ) (q : String),
      findCategory q cats = none →
      get_all_products_in_category cats f pageSize maxPages fuel q =
        some ([], 0)) := by
  refine ⟨by decide, ?_, ?_⟩
  · intro q c cs h
    simp [findCategory, List.find?_cons_of_pos, h]
  · intro cats f pageSize maxPages fuel q h
    simp [get_all_products_in_category, h]

/-- Witness for C9: the query "noodles" matches nothing in ["Dairy"] and
yields the empty result. -/
theorem category_resolution_spec_witness :
    get_all_products_in_category [dairy] (fun _ => ([] : List ℕ)) 20 0 5
      queryMissing = some ([], 0) :=
  category_resolution_spec.2.2 [dairy] (fun _ => ([] : List ℕ)) 20 0 5
    queryMissing (by decide)
